import Mathlib

/-!
Shallow embedding of the diesel-oci Oracle adapter
(`src/oracle/query_builder/mod.rs`, `src/oracle/connection/mod.rs`,
`src/oracle/backend.rs`) together with proofs settling the frozen claims.

Strings are modelled by Lean `String`; machine integers appearing only as
opaque payloads are modelled by `Int`/`Nat`; native floating point payloads
are never inspected or computed with by the embedded code paths, so they are
carried as opaque `Int` codes.  Fallible Rust code returning `Result` is
embedded as `Except`; Rust panics (`unreachable!`, `expect`, `unimplemented!`,
out-of-bounds indexing) are embedded as an explicit `panic` outcome of a
`Step` type.  External driver calls (the `oracle` crate) are modelled as
explicit inputs: a record of the results each driver call would produce.
-/

deriving instance DecidableEq for Except

namespace DieselOci

/-! ## Query builder (`src/oracle/query_builder/mod.rs`) -/

/-- The Oracle query builder: accumulated SQL text plus the bind counter.
Mirrors `struct OciQueryBuilder { sql: String, bind_idx: u32 }`. -/
structure OciQueryBuilder where
  sql : String
  bind_idx : Nat
  deriving Repr, DecidableEq

/-- `OciQueryBuilder::default()` / `OciQueryBuilder::new()`: empty SQL, counter 0. -/
def OciQueryBuilder.default : OciQueryBuilder := ⟨"", 0⟩

/-- `push_sql`: appends text to the accumulated SQL. -/
def push_sql (qb : OciQueryBuilder) (s : String) : OciQueryBuilder :=
  { qb with sql := qb.sql ++ s }

/-- The backtick character, written by code so that the source file itself
contains no backtick outside comments and strings. -/
def backtickChar : Char := Char.ofNat 96

/-- Rust `identifier.replace(BACKTICK_CHAR, doubled)`: every backtick in the
string is replaced by two backticks. -/
def replaceBacktick (s : String) : String :=
  String.mk ((s.data.map (fun c =>
    if c = backtickChar then [backtickChar, backtickChar] else [c])).flatten)

/-- Rust `str::to_uppercase`, modelled character-wise (faithful on ASCII,
which is all the adapter's identifier handling is exercised with). -/
def toUppercase (s : String) : String := String.mk (s.data.map Char.toUpper)

/-- `push_identifier`: pushes a double quote, then the identifier with every
backtick doubled and the result uppercased, then a closing double quote;
always returns `Ok(())`.  The error type is irrelevant here (the function
never fails); `Unit` stands for the diesel error. -/
def push_identifier (qb : OciQueryBuilder) (identifier : String) :
    Except Unit OciQueryBuilder :=
  Except.ok (push_sql (push_sql (push_sql qb "\"")
    (toUppercase (replaceBacktick identifier))) "\"")

/-- `push_bind_param`: formats `:in{bind_idx}`, increments the counter, and
appends the formatted placeholder to the SQL. -/
def push_bind_param (qb : OciQueryBuilder) : OciQueryBuilder :=
  let s := ":in" ++ toString qb.bind_idx
  { sql := (push_sql qb s).sql, bind_idx := qb.bind_idx + 1 }

/-- One abstract call against the query builder, as performed by diesel's
AST walk: raw SQL, an identifier, or a bind parameter placeholder. -/
inductive QbOp : Type where
  | pushSqlOp (s : String)
  | pushIdentifierOp (s : String)
  | bindParamOp
  deriving Repr, DecidableEq

/-- Applies one builder call.  `push_identifier` always returns `Ok`, so its
resulting builder is extracted directly (the `Except.error` branch is
unreachable and returns the builder unchanged). -/
def applyOp (qb : OciQueryBuilder) : QbOp → OciQueryBuilder
  | .pushSqlOp s => push_sql qb s
  | .pushIdentifierOp s =>
    match push_identifier qb s with
    | .ok qb2 => qb2
    | .error _ => qb
  | .bindParamOp => push_bind_param qb

/-- Runs a sequence of builder calls from a given builder state. -/
def runOps (qb : OciQueryBuilder) : List QbOp → OciQueryBuilder
  | [] => qb
  | op :: ops => runOps (applyOp qb op) ops

/-- The placeholder strings formatted by the `push_bind_param` calls of an
op sequence, in call order (each is the `format!(":in{}", self.bind_idx)`
value at the moment of the call). -/
def placeholders (qb : OciQueryBuilder) : List QbOp → List String
  | [] => []
  | .bindParamOp :: ops =>
    (":in" ++ toString qb.bind_idx) :: placeholders (push_bind_param qb) ops
  | op :: ops => placeholders (applyOp qb op) ops

/-- The number of `push_bind_param` calls in an op sequence. -/
def numBindParams : List QbOp → Nat
  | [] => 0
  | .bindParamOp :: ops => numBindParams ops + 1
  | _ :: ops => numBindParams ops

/-! ## Transaction-manager state and `is_broken`
(`src/oracle/connection/mod.rs`, lines 680-694).

`OCITransactionManager` itself lives in a file not present under `src/`;
only the two fields read by `is_broken` are modelled, reconstructed from
their uses in `connection/mod.rs` and diesel's
`TransactionManagerStatus` type: `status.transaction_depth()` returns
`Err(_)` when the manager is in the error state and `Ok(depth)` when valid. -/

/-- diesel's `TransactionManagerStatus`, as observed through
`transaction_depth()`: `inError` makes `transaction_depth()` return `Err(_)`,
`valid d` makes it return `Ok(d)` (`d = some n` while a transaction is open). -/
inductive TxStatus : Type where
  | inError
  | valid (depth : Option Nat)
  deriving Repr, DecidableEq

/-- The two fields of `OCITransactionManager` read by `is_broken`. -/
structure OCITransactionManager where
  status : TxStatus
  is_test_transaction : Bool
  deriving Repr, DecidableEq

/-- `matches!(status.transaction_depth(), Err(_))`. -/
def txDepthIsErr : TxStatus → Bool
  | .inError => true
  | .valid _ => false

/-- `matches!(status.transaction_depth(), Ok(Some(_)))`. -/
def txDepthIsOpen : TxStatus → Bool
  | .inError => false
  | .valid (some _) => true
  | .valid none => false

/-- `is_broken` from the `R2D2Connection` impl.  `ociAttr` is the result of
`self.raw.oci_attr::<TransactionInProgress>()` (`none` models a failed
attribute read, which the code turns into `true` via `unwrap_or(true)`).
Rust precedence: `&&` binds tighter than `||`, so the body parses as
`Err || ((Open || native) && !is_test)`. -/
def is_broken (tm : OCITransactionManager) (ociAttr : Option Bool) : Bool :=
  txDepthIsErr tm.status
    || (txDepthIsOpen tm.status || ociAttr.getD true)
        && !tm.is_test_transaction

/-- The claim's reading of `is_broken` (C1, from the spec's words):
`Error`, or (`Open` AND native reports in-progress AND not a test
transaction). -/
def isBrokenClaim (tm : OCITransactionManager) (ociAttr : Option Bool) : Bool :=
  txDepthIsErr tm.status
    || (txDepthIsOpen tm.status && ociAttr.getD true && !tm.is_test_transaction)

/-! ## Driver errors and their diesel translation
(`src/oracle/connection/mod.rs`, lines 150-207). -/

/-- The `oracle` crate's error enum (the variants matched in
`From<ErrorHelper> for diesel::result::Error`).  Payloads that are boxed
`dyn Error` values or driver structs are modelled as their display strings;
`BatchErrors` carries a list of row errors (matched with `_e` by the code,
so its contents are never used). -/
inductive OracleError : Type where
  | OciError (s : String)
  | DpiError (s : String)
  | NullValue
  | ParseError (s : String)
  | OutOfRange (s : String)
  | InvalidTypeConversion (from_ to_ : String)
  | InvalidBindIndex (n : Nat)
  | InvalidBindName (s : String)
  | InvalidColumnIndex (n : Nat)
  | InvalidColumnName (s : String)
  | InvalidAttributeName (s : String)
  | InvalidOperation (s : String)
  | UninitializedBindValue
  | NoDataFound
  | InternalError (s : String)
  | BatchErrors (es : List String)
  deriving Repr, DecidableEq

/-- The `Box<dyn Error>` payload carried by diesel's error variants: either a
whole boxed driver error (`e.into()` on the matched `oracle::Error`),
diesel's `UnexpectedNullError` / `UnexpectedEndOfRow` markers, or a plain
message string (`String::into` / the inner boxed error of a variant). -/
inductive BoxedErr : Type where
  | oracleError (e : OracleError)
  | unexpectedNullError
  | unexpectedEndOfRow
  | text (s : String)
  deriving Repr, DecidableEq

/-- The diesel `result::Error` variants produced by the adapter. -/
inductive DieselError : Type where
  | QueryBuilderError (b : BoxedErr)
  | DeserializationError (b : BoxedErr)
  | SerializationError (b : BoxedErr)
  | NotFound
  deriving Repr, DecidableEq

/-- The kind (constructor tag) of a produced diesel error. -/
inductive DieselKind : Type where
  | QueryBuilderKind
  | DeserializationKind
  | SerializationKind
  | NotFoundKind
  deriving Repr, DecidableEq

/-- Projects a diesel error to its kind. -/
def dieselKind : DieselError → DieselKind
  | .QueryBuilderError _ => .QueryBuilderKind
  | .DeserializationError _ => .DeserializationKind
  | .SerializationError _ => .SerializationKind
  | .NotFound => .NotFoundKind

/-- `From<ErrorHelper> for diesel::result::Error` (lines 158-207): the total
translation of every driver error into a diesel error. -/
def errorFromHelper : OracleError → DieselError
  | .OciError s => .QueryBuilderError (.oracleError (.OciError s))
  | .DpiError s => .QueryBuilderError (.oracleError (.DpiError s))
  | .NullValue => .DeserializationError .unexpectedNullError
  | .ParseError s => .SerializationError (.text s)
  | .OutOfRange s => .DeserializationError (.text s)
  | .InvalidTypeConversion from_ to_ =>
    .DeserializationError (.text ("Cannot convert from " ++ from_ ++ " to " ++ to_))
  | .InvalidBindIndex n =>
    .QueryBuilderError (.text ("Invalid bind with index: " ++ toString n))
  | .InvalidBindName s =>
    .QueryBuilderError (.text ("Invalid bind with name: " ++ s))
  | .InvalidColumnIndex _ => .DeserializationError .unexpectedEndOfRow
  | .InvalidColumnName c =>
    .DeserializationError (.text ("Invalid column name: " ++ c))
  | .InvalidAttributeName s =>
    .QueryBuilderError (.text ("Invalid attribute name: " ++ s))
  | .InvalidOperation s =>
    .QueryBuilderError (.text ("Invalid operation: " ++ s))
  | .UninitializedBindValue =>
    .QueryBuilderError (.text "Uninitialized bind value")
  | .NoDataFound => .NotFound
  | .InternalError s => .QueryBuilderError (.text s)
  | .BatchErrors _ => .QueryBuilderError (.text "Batch error")

/-- The kind each driver error is expected to translate to, per the
corrected table (batch failures land in the QueryBuilderError kind with
message "Batch error"; there is no distinct batch kind in diesel's
taxonomy). -/
def expectedKind : OracleError → DieselKind
  | .OciError _ => .QueryBuilderKind
  | .DpiError _ => .QueryBuilderKind
  | .NullValue => .DeserializationKind
  | .ParseError _ => .SerializationKind
  | .OutOfRange _ => .DeserializationKind
  | .InvalidTypeConversion _ _ => .DeserializationKind
  | .InvalidBindIndex _ => .QueryBuilderKind
  | .InvalidBindName _ => .QueryBuilderKind
  | .InvalidColumnIndex _ => .DeserializationKind
  | .InvalidColumnName _ => .DeserializationKind
  | .InvalidAttributeName _ => .QueryBuilderKind
  | .InvalidOperation _ => .QueryBuilderKind
  | .UninitializedBindValue => .QueryBuilderKind
  | .NoDataFound => .NotFoundKind
  | .InternalError _ => .QueryBuilderKind
  | .BatchErrors _ => .QueryBuilderKind

/-! ## Connection establishment (`src/oracle/connection/mod.rs`, lines 242-292).

The `url` crate's parse result is modelled as an explicit optional record:
`none` models a parse failure; in a parsed URL, `username` is the raw
(still percent-encoded) username serialization, `password` is `none` when
the URL carries no password (the `url` crate also reports an empty password
as `None`), `host`/`port` mirror `host_str()`/`port()`, and `path` mirrors
`path()`.  The native `oracle::Connection::connect` call is modelled by its
result, consumed only after all URL checks pass. -/

/-- A parsed connection URL, as observed through the `url` crate accessors
used by `establish`. -/
structure ParsedUrl : Type where
  scheme : String
  username : String
  password : Option String
  host : Option String
  port : Option Nat
  path : String
  deriving Repr, DecidableEq

/-- diesel's `ConnectionError` variants used by `establish`. -/
inductive ConnError : Type where
  | InvalidConnectionUrl (msg : String)
  | CouldntSetupConfiguration (e : DieselError)
  deriving Repr, DecidableEq

/-- The arguments handed to `oracle::Connection::connect` on success:
the percent-decoded username (as its UTF-8 byte list), the password exactly
as it appeared in the URL (never decoded), and the assembled
`host[:port]path` connect string. -/
structure ConnectArgs : Type where
  userBytes : List Nat
  password : String
  connUrl : String
  deriving Repr, DecidableEq

/-- Hex digit value of a character, as used by percent-decoding. -/
def hexVal (c : Char) : Option Nat :=
  if '0' ≤ c ∧ c ≤ '9' then some (c.toNat - 48)
  else if 'A' ≤ c ∧ c ≤ 'F' then some (c.toNat - 55)
  else if 'a' ≤ c ∧ c ≤ 'f' then some (c.toNat - 87)
  else none

/-- `percent_encoding::percent_decode_str` over the characters of an ASCII
string: `%XY` with two hex digits becomes the byte `16*X+Y`; a `%` not
followed by two hex digits is passed through literally (byte 37), as the
`percent_encoding` crate does; other characters pass through as their code
points (inputs from the `url` crate are ASCII). -/
def percentDecodeBytes : List Char → List Nat
  | [] => []
  | '%' :: a :: b :: rest =>
    match hexVal a, hexVal b with
    | some x, some y => (16 * x + y) :: percentDecodeBytes rest
    | _, _ => 37 :: percentDecodeBytes (a :: b :: rest)
  | '%' :: rest => 37 :: percentDecodeBytes rest
  | c :: rest => c.toNat :: percentDecodeBytes rest

/-- Is a byte a UTF-8 continuation byte (`0x80..0xBF`)? -/
def isCont (b : Nat) : Bool := 0x80 ≤ b && b ≤ 0xBF

/-- UTF-8 validity of a byte list (the check performed by
`decode_utf8`), including the surrogate and overlong-encoding exclusions. -/
def isValidUtf8 : List Nat → Bool
  | [] => true
  | b :: rest =>
    if b ≤ 0x7F then isValidUtf8 rest
    else if 0xC2 ≤ b && b ≤ 0xDF then
      match rest with
      | b1 :: rest1 => isCont b1 && isValidUtf8 rest1
      | [] => false
    else if 0xE0 ≤ b && b ≤ 0xEF then
      match rest with
      | b1 :: b2 :: rest2 =>
        (if b = 0xE0 then 0xA0 ≤ b1 && b1 ≤ 0xBF
         else if b = 0xED then 0x80 ≤ b1 && b1 ≤ 0x9F
         else isCont b1)
          && isCont b2 && isValidUtf8 rest2
      | _ => false
    else if 0xF0 ≤ b && b ≤ 0xF4 then
      match rest with
      | b1 :: b2 :: b3 :: rest3 =>
        (if b = 0xF0 then 0x90 ≤ b1 && b1 ≤ 0xBF
         else if b = 0xF4 then 0x80 ≤ b1 && b1 ≤ 0x8F
         else isCont b1)
          && isCont b2 && isCont b3 && isValidUtf8 rest3
      | _ => false
    else false

/-- `percent_decode_str(s).decode_utf8()`: the decoded byte list when it is
valid UTF-8, `none` otherwise. -/
def percentDecodeUtf8 (s : String) : Option (List Nat) :=
  let bs := percentDecodeBytes s.data
  if isValidUtf8 bs then some bs else none

/-- `Connection::establish` (lines 242-292): URL validation and the connect
call.  `parsed` is the `url::Url::parse` result; `connectRes` is the result
the native driver would return for the connect call (consulted only after
every URL check passes). -/
def establish (parsed : Option ParsedUrl) (connectRes : Except OracleError Unit) :
    Except ConnError ConnectArgs :=
  match parsed with
  | none => .error (.InvalidConnectionUrl "Invalid url")
  | some url =>
    if url.scheme ≠ "oracle" then
      .error (.InvalidConnectionUrl ("Got a unsupported url scheme: " ++ url.scheme))
    else if url.username = "" then
      .error (.InvalidConnectionUrl "Username not set")
    else
      match percentDecodeUtf8 url.username with
      | none => .error (.InvalidConnectionUrl "Username could not be percent decoded")
      | some user =>
        match url.password with
        | none => .error (.InvalidConnectionUrl "Password not set")
        | some password =>
          match url.host with
          | none => .error (.InvalidConnectionUrl "Hostname not set")
          | some host =>
            let connUrl :=
              host ++ (match url.port with
                       | some p => ":" ++ toString p
                       | none => "") ++ url.path
            match connectRes with
            | .error e => .error (.CouldntSetupConfiguration (errorFromHelper e))
            | .ok _ => .ok ⟨user, password, connUrl⟩

/-- The amended C2 description, written spec-side: the URL must parse, the
scheme must be the fixed literal "oracle", the username must be non-empty
and percent-decodable UTF-8, a password must be present (the URL layer
reports an empty password as absent), and a host must be present; each
failure yields a `ConnectionError` naming the offending component.  Only
then is the native driver consulted; it receives the decoded username, the
password exactly as written in the URL (not decoded, not validated), and
`host[:port]path`. -/
def establishSpec (parsed : Option ParsedUrl) (connectRes : Except OracleError Unit) :
    Except ConnError ConnectArgs :=
  match parsed with
  | none => .error (.InvalidConnectionUrl "Invalid url")
  | some url =>
    if url.scheme ≠ "oracle" then
      .error (.InvalidConnectionUrl ("Got a unsupported url scheme: " ++ url.scheme))
    else if url.username = "" then
      .error (.InvalidConnectionUrl "Username not set")
    else if (percentDecodeUtf8 url.username).isNone then
      .error (.InvalidConnectionUrl "Username could not be percent decoded")
    else if url.password.isNone then
      .error (.InvalidConnectionUrl "Password not set")
    else if url.host.isNone then
      .error (.InvalidConnectionUrl "Hostname not set")
    else
      match connectRes with
      | .error e => .error (.CouldntSetupConfiguration (errorFromHelper e))
      | .ok _ =>
        .ok ⟨(percentDecodeUtf8 url.username).getD [],
             url.password.getD "",
             url.host.getD "" ++ (match url.port with
                                  | some p => ":" ++ toString p
                                  | none => "") ++ url.path⟩

/-! ## Values, type metadata and the RETURNING type table
(`src/oracle/connection/mod.rs`, lines 390-606; `src/oracle/types.rs` and
`oracle_value.rs` are not present under `src/`, so `OciDataType`,
`OciTypeMetadata` and `InnerValue` are reconstructed from their uses in
`connection/mod.rs` and the spec's AbstractValue description). -/

/-- The adapter's logical data kinds (`OciDataType`), as enumerated by the
type table at lines 455-467. -/
inductive OciDataType : Type where
  | Bool
  | SmallInt
  | Integer
  | BigInt
  | Float
  | Double
  | Text
  | Binary
  | Date
  | Time
  | Timestamp
  deriving Repr, DecidableEq

/-- Per-column type metadata (`OciTypeMetadata`): carries the logical kind
read through its `tpe` field. -/
structure OciTypeMetadata where
  tpe : OciDataType
  deriving Repr, DecidableEq

/-- The native `oracle::sql_type::OracleType` variants used (or claimed to
be used) by the RETURNING type table. -/
inductive OracleType : Type where
  | Number (precision scale : Nat)
  | BinaryFloat
  | BinaryDouble
  | NVarchar2 (size : Nat)
  | Raw (size : Nat)
  | Timestamp (fsprec : Nat)
  deriving Repr, DecidableEq

/-- The RETURNING-path OUT-bind type table (lines 455-467): the native type
declared for the synthetic OUT bind of each logical column kind. -/
def oracleTypeFor : OciDataType → OracleType
  | .Bool => .Number 5 0
  | .SmallInt => .Number 5 0
  | .Integer => .Number 10 0
  | .BigInt => .Number 19 0
  | .Float => .Number 19 0
  | .Double => .BinaryDouble
  | .Text => .NVarchar2 2000000
  | .Binary => .Raw 2000000
  | .Date => .Timestamp 0
  | .Time => .Timestamp 0
  | .Timestamp => .Timestamp 0

/-- The Rust type requested from `stmt.returned_values::<_, Option<T>>` when
draining an OUT bind, per logical kind (the "native extraction type"). -/
inductive ExtractTy : Type where
  | i16
  | i32
  | i64
  | f32
  | f64
  | string
  | bytes
  | date
  | datetime
  deriving Repr, DecidableEq

/-- The Lean carrier of each extraction type.  Float, double and the chrono
date/datetime payloads are never inspected by the embedded code, so they
are carried as opaque `Int` codes. -/
abbrev ExtractTy.carrier : ExtractTy → Type
  | .i16 => Int
  | .i32 => Int
  | .i64 => Int
  | .f32 => Int
  | .f64 => Int
  | .string => String
  | .bytes => List Nat
  | .date => Int
  | .datetime => Int

/-- `InnerValue` (from `oracle_value.rs`, reconstructed from the
constructor applications in `connection/mod.rs`). -/
inductive InnerValue : Type where
  | SmallInt (v : Int)
  | Integer (v : Int)
  | BigInt (v : Int)
  | Float (v : Int)
  | Double (v : Int)
  | Text (s : String)
  | Binary (b : List Nat)
  | Date (v : Int)
  | Timestamp (v : Int)
  deriving Repr, DecidableEq

/-- `OracleValue`: the adapter's raw value wrapper around `InnerValue`. -/
structure OracleValue where
  inner : InnerValue
  deriving Repr, DecidableEq

/-- One materialized result row: the `Vec<Option<OracleValue>>` handed to
`OciRow::new_from_value`. -/
abbrev Row : Type := List (Option OracleValue)

/-- Outcome of an embedded code path that may return a value, surface a
recoverable diesel error, or panic (Rust `unreachable!`, `expect`,
`unwrap`, `unimplemented!`, out-of-bounds indexing). -/
inductive Step (α : Type) : Type where
  | ok (a : α)
  | err (e : DieselError)
  | panic (msg : String)
  deriving Repr, DecidableEq

/-- Is the outcome a panic? -/
def Step.isPanic {α : Type} : Step α → Bool
  | .panic _ => true
  | _ => false

/-- The driver statement handle for `load` / `load_from_is_returning`, as an
explicit record of what each native call would produce: the statement
shape flags, the total bind count the driver sees in the SQL text, the
results of `query_named` (a list of per-row fetch results),
`execute_named`, `row_count`, and `returned_values` for a given OUT bind
name at a given extraction type. -/
structure Stmt : Type where
  isQueryStmt : Bool
  isReturningStmt : Bool
  bindCount : Nat
  queryRes : Except OracleError (List (Except OracleError Row))
  executeRes : Except OracleError Unit
  rowCountRes : Except OracleError Nat
  returnedValues : String → (t : ExtractTy) → Except OracleError (List (Option t.carrier))

/-- Name of the `id`-th synthetic OUT bind: `format!("out{}", id)`. -/
def outName (id : Nat) : String := "out" ++ toString id

/-- The `other_binds` construction (lines 450-470): one `(name, type)` pair
per metadata entry, with name `out{id}` and the table's native type;
missing metadata panics via `expect("Returning queries need to be typed")`. -/
def mkOtherBinds : Nat → List (Option OciTypeMetadata) →
    Step (List (String × OracleType))
  | _, [] => .ok []
  | _, none :: _ => .panic "Returning queries need to be typed"
  | id, some m :: rest =>
    match mkOtherBinds (id + 1) rest with
    | .ok l => .ok ((outName id, oracleTypeFor m.tpe) :: l)
    | .err e => .err e
    | .panic s => .panic s

/-- Wraps a driver error from a `?`-propagated call. -/
def liftDriver {α β : Type} (r : Except OracleError α) (f : α → β) : Step β :=
  match r with
  | .error e => .err (errorFromHelper e)
  | .ok a => .ok (f a)

/-- Draining one OUT bind (the per-kind arms at lines 486-602): requests the
extraction type the kind dictates and wraps each returned value in the
kind's `InnerValue` constructor.  The `Date`/`Timestamp` arms exist only
when the `chrono` feature is compiled in (`chrono` flag); `Time` has no arm
in any configuration.  Kinds without an arm hit `_ => unimplemented!()`. -/
def extractColumn (chrono : Bool) (stmt : Stmt) (name : String) :
    OciDataType → Step (List (Option OracleValue))
  | .Bool => liftDriver (stmt.returnedValues name .i16)
      (List.map (Option.map (fun v => OracleValue.mk (InnerValue.SmallInt v))))
  | .SmallInt => liftDriver (stmt.returnedValues name .i16)
      (List.map (Option.map (fun v => OracleValue.mk (InnerValue.SmallInt v))))
  | .Integer => liftDriver (stmt.returnedValues name .i32)
      (List.map (Option.map (fun v => OracleValue.mk (InnerValue.Integer v))))
  | .BigInt => liftDriver (stmt.returnedValues name .i64)
      (List.map (Option.map (fun v => OracleValue.mk (InnerValue.BigInt v))))
  | .Float => liftDriver (stmt.returnedValues name .f32)
      (List.map (Option.map (fun v => OracleValue.mk (InnerValue.Float v))))
  | .Double => liftDriver (stmt.returnedValues name .f64)
      (List.map (Option.map (fun v => OracleValue.mk (InnerValue.Double v))))
  | .Text => liftDriver (stmt.returnedValues name .string)
      (List.map (Option.map (fun v => OracleValue.mk (InnerValue.Text v))))
  | .Binary => liftDriver (stmt.returnedValues name .bytes)
      (List.map (Option.map (fun v => OracleValue.mk (InnerValue.Binary v))))
  | .Date =>
    if chrono then
      liftDriver (stmt.returnedValues name .date)
        (List.map (Option.map (fun v => OracleValue.mk (InnerValue.Date v))))
    else .panic "not implemented"
  | .Timestamp =>
    if chrono then
      liftDriver (stmt.returnedValues name .datetime)
        (List.map (Option.map (fun v => OracleValue.mk (InnerValue.Timestamp v))))
    else .panic "not implemented"
  | .Time => .panic "not implemented"

/-- `data[i].push(v)` for each value `v` of one drained column, at row
indices `0, 1, 2, ...` (the `enumerate` loop): appends the `i`-th value to
the `i`-th row.  `none` models the out-of-bounds panic raised when the
column holds more values than there are rows. -/
def pushColumn : List Row → List (Option OracleValue) → Option (List Row)
  | data, [] => some data
  | [], _ :: _ => none
  | r :: rs, v :: vs =>
    match pushColumn rs vs with
    | some rs2 => some ((r ++ [v]) :: rs2)
    | none => none

/-- The drain loop over `metadata.iter().enumerate()` (lines 484-603):
unwraps each metadata entry, drains its OUT bind, and pushes the column
values into the per-row vectors. -/
def drainLoop (chrono : Bool) (stmt : Stmt) :
    Nat → List (Option OciTypeMetadata) → List Row → Step (List Row)
  | _, [], data => .ok data
  | _, none :: _, _ => .panic "called Option unwrap on a None value"
  | id, some m :: rest, data =>
    match extractColumn chrono stmt (outName id) m.tpe with
    | .err e => .err e
    | .panic s => .panic s
    | .ok col =>
      match pushColumn data col with
      | none => .panic "index out of bounds"
      | some data2 => drainLoop chrono stmt (id + 1) rest data2

/-- Result of the RETURNING path, instrumenting the one effectful driver
execution: `executedBinds` records the bind names passed to the single
`stmt.execute_named(&binds)` call (input binds followed by the synthetic
OUT binds), `rows` the materialized result rows. -/
structure RetOut : Type where
  executedBinds : List String
  rows : List Row
  deriving DecidableEq

/-- `load_from_is_returning` (lines 433-606): computes the OUT-bind list
from the row metadata (panicking on a missing entry), executes once with
the input binds followed by the OUT binds, reads `row_count`, builds
`row_count` empty rows, then drains each OUT bind in column order into the
rows and returns them.  `inputBinds` are the bind names collected by the
bind collector (`return_count = stmt.bind_count() - binds.len()` is
compared with `metadata.len()` only by a `debug_assert`, which is compiled
out of release builds and hence not a modelled panic). -/
def load_from_is_returning (chrono : Bool) (stmt : Stmt)
    (inputBinds : List String) (metadata : List (Option OciTypeMetadata)) :
    Step RetOut :=
  match mkOtherBinds 0 metadata with
  | .err e => .err e
  | .panic s => .panic s
  | .ok otherBinds =>
    let binds := inputBinds ++ otherBinds.map Prod.fst
    match stmt.executeRes with
    | .error e => .err (errorFromHelper e)
    | .ok _ =>
      match stmt.rowCountRes with
      | .error e => .err (errorFromHelper e)
      | .ok rowCount =>
        let data : List Row := List.replicate rowCount []
        match drainLoop chrono stmt 0 metadata data with
        | .err e => .err e
        | .panic s => .panic s
        | .ok data2 => .ok ⟨binds, data2⟩

/-- The query-path row materialization in `load` (lines 371-379): each row
fetch result of the driver result set is wrapped as an `OciRow` (or its
error translated) and the whole set collected; the first fetch error aborts
the collection. -/
def collectRows : List (Except OracleError Row) → Step (List Row)
  | [] => .ok []
  | .error e :: _ => .err (errorFromHelper e)
  | .ok r :: rest =>
    match collectRows rest with
    | .ok rs => .ok (r :: rs)
    | .err e => .err e
    | .panic s => .panic s

/-- `LoadConnection::load` (lines 352-387): dispatches on the statement
shape.  A query statement runs `query_named` and materializes every row
(each row fetch may fail recoverably); a RETURNING statement takes the
`load_from_is_returning` path; any other shape hits `unreachable!()`. -/
def load (chrono : Bool) (stmt : Stmt) (inputBinds : List String)
    (metadata : List (Option OciTypeMetadata)) : Step (List Row) :=
  if stmt.isQueryStmt then
    match stmt.queryRes with
    | .error e => .err (errorFromHelper e)
    | .ok rowResults => collectRows rowResults
  else if stmt.isReturningStmt then
    match load_from_is_returning chrono stmt inputBinds metadata with
    | .ok out => .ok out.rows
    | .err e => .err e
    | .panic s => .panic s
  else .panic "internal error: entered unreachable code"

/-! ## Batch insert (`src/oracle/connection/mod.rs`, lines 608-663). -/

/-- The driver side of `batch_insert`, as the results each call would
produce: `toSqlRes` is the rendering of the first record's insert statement
(`first_record.to_sql`, a diesel-level step that may fail),
`buildRes` the result of `self.raw.batch(&sql, record_count).build()`,
`appendRes i` the combined result of collecting the `i`-th record's binds
and `batch.append_row_named` for it, `executeRes` the result of
`batch.execute()`, and `reportedRowCount` whatever row count the driver
would report for the batch (never consulted by the adapter). -/
structure BatchDriver : Type where
  toSqlRes : Except DieselError String
  buildRes : Except OracleError Unit
  appendRes : Nat → Except DieselError Unit
  executeRes : Except OracleError Unit
  reportedRowCount : Nat

/-- Trace of the native batch calls issued: the record count the batch
handle was sized to, how many rows were appended, and whether the single
batch execute was reached. -/
structure BatchTrace : Type where
  size : Nat
  appendedRows : Nat
  executed : Bool
  deriving Repr, DecidableEq

/-- Appends records `i, i+1, ...` (the `bind_params_to_batch` calls for the
first record and the loop over the remaining records), stopping at the
first failure; returns the number of rows appended and the error that
stopped the loop, if any. -/
def appendRecords (drv : BatchDriver) (total : Nat) :
    Nat → Nat × Option DieselError
  | i =>
    if _h : i < total then
      match drv.appendRes i with
      | .error e => (i, some e)
      | .ok _ => appendRecords drv total (i + 1)
    else (i, none)
  termination_by i => total - i

/-- `batch_insert` (lines 608-642): an empty record list short-circuits to
`Ok(0)` without touching the driver; otherwise the first record's SQL is
rendered, one batch handle is built sized to the record count, every
record's binds are appended as a batch row, the batch is executed once, and
the record count is returned.  The first component traces the native batch
calls issued (`none` = no batch handle requested). -/
def batch_insert {α : Type} (drv : BatchDriver) (records : List α) :
    Option BatchTrace × Except DieselError Nat :=
  match records with
  | [] => (none, .ok 0)
  | _ :: _ =>
    let record_count := records.length
    match drv.toSqlRes with
    | .error e => (none, .error e)
    | .ok _sql =>
      match drv.buildRes with
      | .error e => (some ⟨record_count, 0, false⟩,
                     .error (errorFromHelper e))
      | .ok _ =>
        match appendRecords drv record_count 0 with
        | (appended, some e) =>
          (some ⟨record_count, appended, false⟩, .error e)
        | (appended, none) =>
          match drv.executeRes with
          | .error e => (some ⟨record_count, appended, false⟩,
                         .error (errorFromHelper e))
          | .ok _ => (some ⟨record_count, appended, true⟩, .ok record_count)

/-! ## Remaining auxiliary definitions (claim-side predicates and witness
fixtures) -/

/-- The URL checks `establish` performs before consulting the native
driver: scheme is the fixed literal, username non-empty and
percent-decodable UTF-8, password present, host present. -/
def passesChecks (u : ParsedUrl) : Bool :=
  (u.scheme = "oracle" : Bool)
    && (u.username ≠ "" : Bool)
    && (percentDecodeUtf8 u.username).isSome
    && u.password.isSome
    && u.host.isSome

/-- The kinds the RETURNING drain loop has an extraction arm for,
independent of the `chrono` feature. -/
def supportedRetKind : OciDataType → Bool
  | .Bool => true
  | .SmallInt => true
  | .Integer => true
  | .BigInt => true
  | .Float => true
  | .Double => true
  | .Text => true
  | .Binary => true
  | .Date => false
  | .Time => false
  | .Timestamp => false

/-- The kinds the drain loop can extract without panicking, given whether
the `chrono` feature is compiled in: `Time` never has an arm; `Date` and
`Timestamp` have one exactly when `chrono` is enabled. -/
def drainableKind (chrono : Bool) : OciDataType → Bool
  | .Date => chrono
  | .Time => false
  | .Timestamp => chrono
  | k => supportedRetKind k

/-- C3 hypothesis predicate: starting at OUT-bind index `id`, each
metadata entry's column drains (with the extraction type its kind selects)
to the corresponding value list, and every such list has exactly `rc`
entries (one value per affected row). -/
def ColsOk (chrono : Bool) (stmt : Stmt) (rc : Nat) :
    Nat → List OciTypeMetadata → List (List (Option OracleValue)) → Prop
  | _, [], [] => True
  | id, m :: ms, c :: cs =>
    extractColumn chrono stmt (outName id) m.tpe = Step.ok c
      ∧ c.length = rc ∧ ColsOk chrono stmt rc (id + 1) ms cs
  | _, _, _ => False

/-- Appending each column of `cols`, in order, onto the row vectors
(`data[i].push(col[i])` per column): the pure shape of the drain loop's
row mutation. -/
def pushAllColumns : List Row → List (List (Option OracleValue)) → List Row
  | data, [] => data
  | data, c :: cs =>
    pushAllColumns (List.zipWith (fun r v => r ++ [v]) data c) cs

/-- A concrete batch driver where every native call succeeds (the driver
reports an arbitrary row count of 7, never consulted by the adapter). -/
def drvAllOk : BatchDriver :=
  ⟨Except.ok "INSERT INTO T VALUES (:in0)", Except.ok (),
   fun _ => Except.ok (), Except.ok (), 7⟩

/-- A concrete RETURNING statement used as witness fixture: 3 binds in the
SQL (2 inputs + 1 OUT), 2 affected rows, and OUT bind `out0` draining (at
the 32-bit integer extraction type) to the values 5 and 7. -/
def stmtRet : Stmt where
  isQueryStmt := false
  isReturningStmt := true
  bindCount := 3
  queryRes := Except.ok []
  executeRes := Except.ok ()
  rowCountRes := Except.ok 2
  returnedValues := fun n t =>
    match t with
    | .i32 => if n = "out0" then Except.ok [some 5, some 7]
              else Except.error (OracleError.InvalidBindName n)
    | _ => Except.error (OracleError.InvalidBindName n)

/-- A concrete RETURNING statement whose single returned column has `Time`
kind (with full type metadata supplied) and whose driver calls all
succeed. -/
def stmtTime : Stmt where
  isQueryStmt := false
  isReturningStmt := true
  bindCount := 1
  queryRes := Except.ok []
  executeRes := Except.ok ()
  rowCountRes := Except.ok 1
  returnedValues := fun _ _ => Except.ok []

/-! ## Claim C1: `is_broken` -/

/-- C1 counterexample: with an open non-test transaction whose native layer
reports *no* in-progress transaction, the claim's formula
(`Error ∨ (Open ∧ native ∧ ¬test)`) says `is_broken` is `false`, but the
code (which parses as `Error ∨ ((Open ∨ native) ∧ ¬test)`) returns `true`. -/
theorem C1_is_broken_counterexample :
    is_broken ⟨TxStatus.valid (some 1), false⟩ (some false) = true
      ∧ isBrokenClaim ⟨TxStatus.valid (some 1), false⟩ (some false) = false := by
  decide

/-- C1 amended: `is_broken()` returns true exactly when the transaction
state is Error, or ((the transaction state is Open OR the native connection
reports an in-progress transaction, a failed attribute read counting as
in-progress) AND the open transaction was not started as a test
transaction); in particular it returns false for a test transaction left
open and false when no transaction is open and the native layer reports
none in progress. -/
theorem C1_is_broken_amended (tm : OCITransactionManager) (ociAttr : Option Bool) :
    (is_broken tm ociAttr = true ↔
      (tm.status = TxStatus.inError
        ∨ (((∃ d, tm.status = TxStatus.valid (some d)) ∨ ociAttr.getD true = true)
            ∧ tm.is_test_transaction = false)))
    ∧ is_broken ⟨tm.status, true⟩ (some true) =
        txDepthIsErr tm.status
    ∧ is_broken ⟨TxStatus.valid none, tm.is_test_transaction⟩ (some false) = false := by
  obtain ⟨st, t⟩ := tm
  refine ⟨?_, ?_, ?_⟩
  · cases st with
    | inError => simp [is_broken, txDepthIsErr, txDepthIsOpen]
    | valid d =>
      cases d <;> cases t <;> rcases ociAttr with _ | (_ | _) <;>
        simp [is_broken, txDepthIsErr, txDepthIsOpen, Option.getD]
  · cases st <;> simp [is_broken, txDepthIsErr, txDepthIsOpen]
  · cases t <;> simp [is_broken, txDepthIsErr, txDepthIsOpen]

/-! ## Claim C4: the RETURNING OUT-bind type table -/

/-- C4 counterexample: the `Float` kind (a floating kind) does not map to
binary-float or binary-double; it maps to the 19-digit scale-0 numeric
type, the same native type as `BigInt`. -/
theorem C4_type_table_counterexample :
    oracleTypeFor OciDataType.Float = OracleType.Number 19 0
      ∧ oracleTypeFor OciDataType.Float ≠ OracleType.BinaryFloat
      ∧ oracleTypeFor OciDataType.Float ≠ OracleType.BinaryDouble := by
  decide

/-- C4 amended: every integer kind maps to the native numeric type sized to
losslessly hold its logical range (SmallInt to 5 digits holding the 16-bit
range, Integer to 10 digits holding the 32-bit range, BigInt to 19 digits
holding the 64-bit range), boolean maps to the same small 5-digit numeric
type, `Double` maps to native binary-double but `Float` maps to the 19-digit
scale-0 numeric type (the same entry as `BigInt`), and Text/Binary map to
variable-length native types with the fixed bound 2000000. -/
theorem C4_type_table_amended :
    oracleTypeFor OciDataType.SmallInt = OracleType.Number 5 0
      ∧ 2 ^ 15 ≤ 10 ^ 5
      ∧ oracleTypeFor OciDataType.Integer = OracleType.Number 10 0
      ∧ 2 ^ 31 ≤ 10 ^ 10
      ∧ oracleTypeFor OciDataType.BigInt = OracleType.Number 19 0
      ∧ 2 ^ 63 ≤ 10 ^ 19
      ∧ oracleTypeFor OciDataType.Bool = OracleType.Number 5 0
      ∧ oracleTypeFor OciDataType.Double = OracleType.BinaryDouble
      ∧ oracleTypeFor OciDataType.Float = OracleType.Number 19 0
      ∧ oracleTypeFor OciDataType.Text = OracleType.NVarchar2 2000000
      ∧ oracleTypeFor OciDataType.Binary = OracleType.Raw 2000000 := by
  decide

/-! ## Claim C5: driver-error translation -/

/-- C5 counterexample: batch execution failures do not become a distinct
`BatchError` kind; they are translated into the `QueryBuilderError` kind
(message "Batch error"), the very kind the claim reserves for invalid
binds and invalid operations. -/
theorem C5_error_translation_counterexample :
    errorFromHelper (OracleError.BatchErrors []) =
        DieselError.QueryBuilderError (BoxedErr.text "Batch error")
      ∧ dieselKind (errorFromHelper (OracleError.BatchErrors [])) =
          DieselKind.QueryBuilderKind
      ∧ dieselKind (errorFromHelper (OracleError.InvalidOperation "op")) =
          DieselKind.QueryBuilderKind := by
  decide

/-- C5 amended: the translation is a total function mapping every driver
error to exactly one diesel error kind: no-data-found becomes NotFound;
null value, out-of-range, invalid type conversion, and invalid column
index/name become DeserializationError; malformed-textual-data parse
failure becomes SerializationError; invalid bind index/name and invalid
operation become QueryBuilderError; and batch execution failures also
become QueryBuilderError with the opaque message "Batch error" (diesel's
taxonomy has no distinct batch kind), as do the remaining driver-internal
errors. -/
theorem C5_error_translation_amended (e : OracleError) :
    dieselKind (errorFromHelper e) = expectedKind e := by
  cases e <;> rfl

/-! ## Claim C7: `push_identifier` -/

/-- C7: `push_identifier(s)` always succeeds and appends to the accumulated
SQL exactly a double quote, then `s` with every backtick doubled and the
result uppercased, then the closing double quote; the bind counter is
untouched.  In particular `push_identifier("user name")` appends
`"USER NAME"` in quotes, and an identifier containing a backtick has the
backtick doubled before uppercasing and quoting. -/
theorem C7_push_identifier (qb : OciQueryBuilder) (s : String) :
    push_identifier qb s =
        Except.ok { sql := qb.sql ++ "\"" ++ toUppercase (replaceBacktick s) ++ "\"",
                    bind_idx := qb.bind_idx }
      ∧ push_identifier OciQueryBuilder.default "user name" =
          Except.ok { sql := "\"USER NAME\"", bind_idx := 0 }
      ∧ push_identifier OciQueryBuilder.default
            (String.mk ['a', backtickChar, 'b']) =
          Except.ok { sql := String.mk ['"', 'A', backtickChar, backtickChar, 'B', '"'],
                      bind_idx := 0 } := by
  refine ⟨?_, by rfl, by rfl⟩
  simp [push_identifier, push_sql, String.append_assoc]

/-! ## Claim C8: `push_bind_param` placeholder sequence -/

/-- The placeholders emitted from an arbitrary builder state: one `:inN`
per `push_bind_param` call, with `N` counting up from the current
`bind_idx`; `push_sql` and `push_identifier` calls do not disturb it. -/
theorem placeholders_from (ops : List QbOp) :
    ∀ (k : Nat) (sql : String),
      placeholders ⟨sql, k⟩ ops =
        (List.range (numBindParams ops)).map (fun i => ":in" ++ toString (k + i)) := by
  induction ops with
  | nil => intro k sql; rfl
  | cons op ops ih =>
    intro k sql
    cases op with
    | pushSqlOp s =>
      simp only [placeholders, numBindParams, applyOp, push_sql]
      exact ih k (sql ++ s)
    | pushIdentifierOp s =>
      simp only [placeholders, numBindParams, applyOp, push_identifier, push_sql]
      exact ih k _
    | bindParamOp =>
      simp only [placeholders, numBindParams, push_bind_param, push_sql]
      rw [ih (k + 1) _, List.range_succ_eq_map, List.map_cons, List.map_map]
      refine congrArg₂ List.cons (by simp) (List.map_congr_left ?_)
      intro a _
      have hk : k + 1 + a = k + (a + 1) := by omega
      simp [Function.comp, hk]

/-- The bind counter after running an op sequence: it grows by exactly the
number of `push_bind_param` calls. -/
theorem runOps_bind_idx (ops : List QbOp) :
    ∀ (qb : OciQueryBuilder),
      (runOps qb ops).bind_idx = qb.bind_idx + numBindParams ops := by
  induction ops with
  | nil => intro qb; simp [runOps, numBindParams]
  | cons op ops ih =>
    intro qb
    cases op with
    | pushSqlOp s =>
      simp only [runOps, numBindParams, applyOp]
      rw [ih]
      simp [push_sql]
    | pushIdentifierOp s =>
      simp only [runOps, numBindParams, applyOp, push_identifier]
      rw [ih]
      simp [push_sql]
    | bindParamOp =>
      simp only [runOps, numBindParams, applyOp, push_bind_param]
      rw [ih]
      simp [push_sql]
      omega

/-- C8: starting from a fresh builder, for any interleaving of `push_sql`,
`push_identifier` and `push_bind_param` calls with `K` bind-param calls,
the `K` placeholders appended are exactly `:in0, :in1, ..., :in(K-1)` in
call order, and the per-builder counter ends at `K` (it starts at 0 and
increases by exactly one per `push_bind_param` call). -/
theorem C8_push_bind_param_sequence (ops : List QbOp) :
    placeholders OciQueryBuilder.default ops =
        (List.range (numBindParams ops)).map (fun i => ":in" ++ toString i)
      ∧ (runOps OciQueryBuilder.default ops).bind_idx = numBindParams ops := by
  constructor
  · rw [show OciQueryBuilder.default = ⟨"", 0⟩ from rfl, placeholders_from]
    simp
  · rw [runOps_bind_idx]
    simp [OciQueryBuilder.default]

/-! ## Claims C9 and C10: `batch_insert` -/

/-- Unrolling the append loop when every append succeeds: it reaches the
record count without error. -/
theorem appendRecords_all_ok (drv : BatchDriver) (total : Nat)
    (h : ∀ i, i < total → drv.appendRes i = Except.ok ()) :
    ∀ j, j ≤ total → appendRecords drv total j = (total, none) := by
  have key : ∀ n j, total - j = n → j ≤ total →
      appendRecords drv total j = (total, none) := by
    intro n
    induction n with
    | zero =>
      intro j hj hle
      have hje : j = total := by omega
      unfold appendRecords
      rw [dif_neg (by omega)]
      rw [hje]
    | succ n ih =>
      intro j hj hle
      have hlt : j < total := by omega
      unfold appendRecords
      rw [dif_pos hlt, h j hlt]
      exact ih (j + 1) (by omega) (by omega)
  exact fun j hle => key (total - j) j rfl hle

/-- The append loop depends on the driver only through `appendRes`. -/
theorem appendRecords_ext (d1 d2 : BatchDriver)
    (h : ∀ i, d1.appendRes i = d2.appendRes i) (total : Nat) :
    ∀ j, appendRecords d1 total j = appendRecords d2 total j := by
  have key : ∀ n j, total - j = n →
      appendRecords d1 total j = appendRecords d2 total j := by
    intro n
    induction n with
    | zero =>
      intro j hj
      unfold appendRecords
      rw [dif_neg (by omega), dif_neg (by omega)]
    | succ n ih =>
      intro j hj
      by_cases hlt : j < total
      · unfold appendRecords
        rw [dif_pos hlt, dif_pos hlt, h j]
        cases d2.appendRes j with
        | error e => rfl
        | ok u => exact ih (j + 1) (by omega)
      · unfold appendRecords
        rw [dif_neg hlt, dif_neg hlt]
  exact fun j => key (total - j) j rfl

/-- C9: `batch_insert` applied to an empty record list returns `Ok(0)`
and issues no native batch call (no batch handle is built, so no batch
execute can occur); for a non-empty record list, whenever a batch handle
is built it is sized to the record count, and it is indeed built as soon
as the first record's SQL renders. -/
theorem C9_batch_insert_empty_noop {α : Type} (drv : BatchDriver)
    (records : List α) (hne : records ≠ []) :
    batch_insert drv ([] : List α) = (none, Except.ok 0)
      ∧ (∀ tr, (batch_insert drv records).1 = some tr → tr.size = records.length)
      ∧ (∀ s, drv.toSqlRes = Except.ok s → ((batch_insert drv records).1).isSome = true) := by
  refine ⟨rfl, ?_, ?_⟩
  · intro tr htr
    cases records with
    | nil => exact absurd rfl hne
    | cons a as =>
      simp only [batch_insert] at htr
      cases hs : drv.toSqlRes with
      | error e => rw [hs] at htr; simp at htr
      | ok s =>
        rw [hs] at htr
        cases hb : drv.buildRes with
        | error e =>
          rw [hb] at htr
          simp at htr
          simp [← htr]
        | ok u =>
          rw [hb] at htr
          cases hap : appendRecords drv (a :: as).length 0 with
          | mk appended stop =>
            rw [hap] at htr
            cases stop with
            | some e => simp at htr; simp [← htr]
            | none =>
              cases he : drv.executeRes with
              | error e => rw [he] at htr; simp at htr; simp [← htr]
              | ok u2 => rw [he] at htr; simp at htr; simp [← htr]
  · intro s hs
    cases records with
    | nil => exact absurd rfl hne
    | cons a as =>
      simp only [batch_insert]
      rw [hs]
      cases hb : drv.buildRes with
      | error e => rfl
      | ok u =>
        cases hap : appendRecords drv (a :: as).length 0 with
        | mk appended stop =>
          cases stop with
          | some e => rfl
          | none =>
            cases he : drv.executeRes with
            | error e => rfl
            | ok u2 => rfl

/-- C10: for every non-empty list of N records, when the SQL renders and
every native batch call succeeds, `batch_insert` returns `Ok(N)` — the
count of input records — and its entire behaviour is independent of the
row count the native driver would report for the batch execution. -/
theorem C10_batch_insert_returns_record_count {α : Type} (drv : BatchDriver)
    (records : List α) (hne : records ≠ [])
    (hsql : ∃ s, drv.toSqlRes = Except.ok s)
    (hbuild : drv.buildRes = Except.ok ())
    (happ : ∀ i, i < records.length → drv.appendRes i = Except.ok ())
    (hexec : drv.executeRes = Except.ok ()) :
    (batch_insert drv records).2 = Except.ok records.length
      ∧ ∀ n, batch_insert { drv with reportedRowCount := n } records =
          batch_insert drv records := by
  constructor
  · cases records with
    | nil => exact absurd rfl hne
    | cons a as =>
      obtain ⟨s, hs⟩ := hsql
      simp only [batch_insert]
      rw [hs, hbuild, appendRecords_all_ok drv (a :: as).length happ 0 (by omega),
        hexec]
  · intro n
    cases records with
    | nil => rfl
    | cons a as =>
      simp only [batch_insert]
      rw [appendRecords_ext { drv with reportedRowCount := n } drv (fun _ => rfl)]

/-- C9 witness: instantiated at the all-ok driver and the two-record list
`[0, 1]`. -/
theorem C9_batch_insert_empty_noop_witness :
    (([0, 1] : List Nat) ≠ [])
      ∧ (batch_insert drvAllOk ([] : List Nat) = (none, Except.ok 0)
          ∧ (∀ tr, (batch_insert drvAllOk ([0, 1] : List Nat)).1 = some tr →
                tr.size = ([0, 1] : List Nat).length)
          ∧ (∀ s, drvAllOk.toSqlRes = Except.ok s →
                ((batch_insert drvAllOk ([0, 1] : List Nat)).1).isSome = true)) :=
  ⟨by decide, C9_batch_insert_empty_noop drvAllOk [0, 1] (by decide)⟩

/-- C10 witness: instantiated at the all-ok driver and the two-record list
`[0, 1]`; the hypotheses are discharged by evaluation. -/
theorem C10_batch_insert_returns_record_count_witness :
    (([0, 1] : List Nat) ≠ [])
      ∧ ((batch_insert drvAllOk ([0, 1] : List Nat)).2 =
            Except.ok ([0, 1] : List Nat).length
          ∧ ∀ n, batch_insert { drvAllOk with reportedRowCount := n }
                ([0, 1] : List Nat) =
              batch_insert drvAllOk ([0, 1] : List Nat)) :=
  ⟨by decide,
   C10_batch_insert_returns_record_count drvAllOk [0, 1] (by decide)
     ⟨"INSERT INTO T VALUES (:in0)", rfl⟩ rfl (fun _ _ => rfl) rfl⟩

/-! ## Claim C2: `establish` URL validation -/

/-- C2 counterexample: `"%FF"` is not percent-decodable UTF-8 (it decodes
to the lone byte 0xFF), yet a URL carrying it as password is not rejected:
`establish` hands the connection to the native driver with the password
passed through still percent-encoded.  The claim says such a URL must fail
with a `ConnectionError`. -/
theorem C2_establish_counterexample :
    isValidUtf8 (percentDecodeBytes "%FF".data) = false
      ∧ establish (some ⟨"oracle", "user", some "%FF", some "h", none, "/db"⟩)
            (Except.ok ()) =
          Except.ok ⟨[117, 115, 101, 114], "%FF", "h/db"⟩ := by
  decide

/-- C2 amended: `establish` returns a `ConnectionError` naming the
offending component when the URL is unparseable, when the scheme is not
the fixed literal "oracle", when the username is empty or not
percent-decodable UTF-8, when the password is absent (the URL layer
reports an empty password as absent), or when the host is missing; only
URLs passing all these checks are handed to the native driver, which
receives the percent-decoded username, the password exactly as written in
the URL (never percent-decoded or validated), and `host[:port]path`. -/
theorem C2_establish_amended :
    (∀ (parsed : Option ParsedUrl) (res : Except OracleError Unit),
        establish parsed res = establishSpec parsed res)
      ∧ (∀ (u : ParsedUrl) (r₁ r₂ : Except OracleError Unit),
          passesChecks u = false → establish (some u) r₁ = establish (some u) r₂) := by
  constructor
  · intro parsed res
    cases parsed with
    | none => rfl
    | some u =>
      obtain ⟨sc, un, pw, ho, po, pa⟩ := u
      by_cases h1 : sc = "oracle" <;>
        by_cases h2 : un = "" <;>
          rcases hd : percentDecodeUtf8 un with _ | bs <;>
            cases pw <;> cases ho <;> cases res <;>
              simp [establish, establishSpec, h1, h2, hd]
  · intro u r₁ r₂ hpc
    obtain ⟨sc, un, pw, ho, po, pa⟩ := u
    by_cases h1 : sc = "oracle" <;>
      by_cases h2 : un = "" <;>
        rcases hd : percentDecodeUtf8 un with _ | bs <;>
          cases pw <;> cases ho <;>
            simp_all [establish, passesChecks]

/-- C2 witness for the amended claim: a URL with an empty username fails
the checks, and `establish` on it never consults the driver result; the
unparseable case agrees with the spec-side description. -/
theorem C2_establish_amended_witness :
    (passesChecks ⟨"oracle", "", none, none, none, ""⟩ = false)
      ∧ establish (some ⟨"oracle", "", none, none, none, ""⟩) (Except.ok ()) =
          establish (some ⟨"oracle", "", none, none, none, ""⟩)
            (Except.error OracleError.NoDataFound)
      ∧ establish none (Except.ok ()) = establishSpec none (Except.ok ()) :=
  ⟨by decide,
   C2_establish_amended.2 _ _ _ (by decide),
   C2_establish_amended.1 none _⟩

/-! ## Claim C3: the RETURNING materialization -/

/-- `mkOtherBinds` on fully-supplied metadata returns, without panicking, a
bind list whose names are `out(id), out(id+1), ...`, one per column. -/
theorem mkOtherBinds_map_some (ms : List OciTypeMetadata) :
    ∀ id : Nat, ∃ l, mkOtherBinds id (List.map some ms) = Step.ok l
      ∧ List.map Prod.fst l =
          List.map (fun k => outName (id + k)) (List.range ms.length) := by
  induction ms with
  | nil => intro id; exact ⟨[], rfl, rfl⟩
  | cons m ms ih =>
    intro id
    obtain ⟨l, hl, hn⟩ := ih (id + 1)
    refine ⟨(outName id, oracleTypeFor m.tpe) :: l, ?_, ?_⟩
    · simp only [List.map_cons, mkOtherBinds, hl]
    · simp only [List.map_cons, List.length_cons, List.range_succ_eq_map,
        List.map_map, hn]
      refine congrArg₂ List.cons (by simp) (List.map_congr_left ?_)
      intro a _
      have hk : id + 1 + a = id + (a + 1) := by omega
      simp [Function.comp, hk]

/-- `pushColumn` with a column exactly as long as the row vector appends
the column's `i`-th value to the `i`-th row. -/
theorem pushColumn_eq :
    ∀ (col : List (Option OracleValue)) (data : List Row),
      col.length = data.length →
      pushColumn data col =
        some (List.zipWith (fun r v => r ++ [v]) data col) := by
  intro col
  induction col with
  | nil =>
    intro data h
    cases data with
    | nil => rfl
    | cons r rs => simp at h
  | cons v vs ih =>
    intro data h
    cases data with
    | nil => simp at h
    | cons r rs =>
      simp only [List.length_cons, Nat.succ.injEq] at h
      simp only [pushColumn, ih rs h, List.zipWith_cons_cons]

/-- `pushColumn` with a column no longer than the row vector succeeds and
preserves the number of rows. -/
theorem pushColumn_isSome :
    ∀ (col : List (Option OracleValue)) (data : List Row),
      col.length ≤ data.length →
      ∃ d2, pushColumn data col = some d2 ∧ d2.length = data.length := by
  intro col
  induction col with
  | nil =>
    intro data _
    cases data with
    | nil => exact ⟨[], rfl, rfl⟩
    | cons r rs => exact ⟨r :: rs, rfl, rfl⟩
  | cons v vs ih =>
    intro data h
    cases data with
    | nil => simp at h
    | cons r rs =>
      simp only [List.length_cons, Nat.succ_le_succ_iff] at h
      obtain ⟨d2, hd2, hlen⟩ := ih rs h
      refine ⟨(r ++ [v]) :: d2, ?_, by simp [hlen]⟩
      simp only [pushColumn, hd2]

/-- Every column list in a `ColsOk` bundle has exactly `rc` entries. -/
theorem colsOk_lengths (chrono : Bool) (stmt : Stmt) (rc : Nat) :
    ∀ (ms : List OciTypeMetadata) (cols : List (List (Option OracleValue)))
      (id : Nat), ColsOk chrono stmt rc id ms cols →
        ∀ c ∈ cols, c.length = rc := by
  intro ms
  induction ms with
  | nil =>
    intro cols id h
    cases cols with
    | nil => intro c hc; simp at hc
    | cons c cs => exact absurd h (by simp [ColsOk])
  | cons m ms ih =>
    intro cols id h
    cases cols with
    | nil => exact absurd h (by simp [ColsOk])
    | cons c cs =>
      obtain ⟨_, hlen, hrest⟩ := h
      intro x hx
      rcases List.mem_cons.mp hx with hx | hx
      · rw [hx]; exact hlen
      · exact ih cs (id + 1) hrest x hx

/-- Under `ColsOk`, the drain loop succeeds and computes exactly the pure
column-append fold. -/
theorem drainLoop_cols (chrono : Bool) (stmt : Stmt) (rc : Nat) :
    ∀ (ms : List OciTypeMetadata) (cols : List (List (Option OracleValue)))
      (id : Nat) (data : List Row),
      ColsOk chrono stmt rc id ms cols → data.length = rc →
      drainLoop chrono stmt id (List.map some ms) data =
        Step.ok (pushAllColumns data cols) := by
  intro ms
  induction ms with
  | nil =>
    intro cols id data h hd
    cases cols with
    | nil => rfl
    | cons c cs => exact absurd h (by simp [ColsOk])
  | cons m ms ih =>
    intro cols id data h hd
    cases cols with
    | nil => exact absurd h (by simp [ColsOk])
    | cons c cs =>
      obtain ⟨hext, hlen, hrest⟩ := h
      simp only [List.map_cons, drainLoop, hext]
      rw [pushColumn_eq c data (by omega)]
      exact ih cs (id + 1) _ hrest (by simp [hd, hlen])

/-- Reading back a list through `getD` over its index range. -/
theorem range_map_getD {α : Type} (d : α) :
    ∀ l : List α, (List.range l.length).map (fun i => l.getD i d) = l := by
  intro l
  induction l with
  | nil => rfl
  | cons a l ih =>
    simp only [List.length_cons, List.range_succ_eq_map, List.map_cons,
      List.map_map]
    refine congrArg₂ List.cons rfl ?_
    calc List.map ((fun i => (a :: l).getD i d) ∘ Nat.succ) (List.range l.length)
        = List.map (fun i => l.getD i d) (List.range l.length) := by
          exact List.map_congr_left (fun x _ => rfl)
      _ = l := ih

/-- `getD` through one `zipWith`-append step. -/
theorem zipWith_append_getD :
    ∀ (data : List Row) (c : List (Option OracleValue)) (i : Nat),
      i < data.length → data.length = c.length →
      (List.zipWith (fun r v => r ++ [v]) data c).getD i [] =
        data.getD i [] ++ [c.getD i none] := by
  intro data
  induction data with
  | nil => intro c i hi _; simp at hi
  | cons r rs ih =>
    intro c i hi hlen
    cases c with
    | nil => simp at hlen
    | cons v vs =>
      cases i with
      | zero => rfl
      | succ j =>
        simp only [List.zipWith_cons_cons, List.getD_cons_succ]
        exact ih vs j (by simp at hi; omega) (by simp at hlen; omega)

/-- The pure column-append fold is a transposition: starting from rows
`data` and appending columns `cols` (all of length `rc = data.length`),
row `i` of the result is row `i` of `data` followed by the `i`-th value of
each column, in column order. -/
theorem pushAllColumns_transpose (rc : Nat) :
    ∀ (cols : List (List (Option OracleValue))) (data : List Row),
      data.length = rc → (∀ c ∈ cols, c.length = rc) →
      pushAllColumns data cols =
        (List.range rc).map
          (fun i => data.getD i [] ++ cols.map (fun c => c.getD i none)) := by
  intro cols
  induction cols with
  | nil =>
    intro data hd _
    simp only [pushAllColumns, List.map_nil, List.append_nil]
    rw [← hd, range_map_getD]
  | cons c cs ih =>
    intro data hd hc
    have hcl : c.length = rc := hc c (List.mem_cons_self c cs)
    have hzl : (List.zipWith (fun r v => r ++ [v]) data c).length = rc := by
      simp [hd, hcl]
    simp only [pushAllColumns]
    rw [ih _ hzl (fun x hx => hc x (List.mem_cons_of_mem c hx))]
    refine List.map_congr_left ?_
    intro i hi
    have hi2 : i < rc := List.mem_range.mp hi
    rw [zipWith_append_getD data c i (by omega) (by omega)]
    simp [List.append_assoc]

/-- `getD` on a replicated empty-row vector is always the empty row. -/
theorem getD_replicate_nil (rc : Nat) :
    ∀ i : Nat, (List.replicate rc ([] : Row)).getD i [] = [] := by
  induction rc with
  | zero => intro i; cases i <;> rfl
  | succ n ih =>
    intro i
    cases i with
    | zero => rfl
    | succ j => simp only [List.replicate, List.getD_cons_succ]; exact ih j

/-- C3: for a RETURNING statement with `B` input binds and `K` returned
columns (each with metadata, and each draining to exactly one value per
affected row), `load_from_is_returning` executes once with exactly the
input binds followed by `K` synthetic OUT binds named `out0..out(K-1)`
(`K = stmt.bind_count() - B`), and materializes `row_count` rows where row
`i` holds the `i`-th value of each drained column in column order (pairing
each output row with input row `i`). -/
theorem C3_returning_materialization (chrono : Bool) (stmt : Stmt)
    (inputBinds : List String) (ms : List OciTypeMetadata)
    (cols : List (List (Option OracleValue))) (rc : Nat)
    (hexec : stmt.executeRes = Except.ok ())
    (hrc : stmt.rowCountRes = Except.ok rc)
    (hbc : stmt.bindCount = inputBinds.length + ms.length)
    (hcols : ColsOk chrono stmt rc 0 ms cols) :
    load_from_is_returning chrono stmt inputBinds (List.map some ms) =
        Step.ok ⟨inputBinds ++ (List.range ms.length).map outName,
                 (List.range rc).map
                   (fun i => cols.map (fun c => c.getD i none))⟩
      ∧ ms.length = stmt.bindCount - inputBinds.length := by
  obtain ⟨l, hl, hn⟩ := mkOtherBinds_map_some ms 0
  constructor
  · simp only [load_from_is_returning, hl, hexec, hrc]
    rw [drainLoop_cols chrono stmt rc ms cols 0 _ hcols (List.length_replicate rc [])]
    rw [pushAllColumns_transpose rc cols _ (List.length_replicate rc [])
      (colsOk_lengths chrono stmt rc ms cols 0 hcols)]
    have hrows : (List.range rc).map
          (fun i => (List.replicate rc ([] : Row)).getD i []
            ++ cols.map (fun c => c.getD i none)) =
        (List.range rc).map (fun i => cols.map (fun c => c.getD i none)) := by
      refine List.map_congr_left ?_
      intro i _
      rw [getD_replicate_nil rc i, List.nil_append]
    rw [hrows]
    have hnames : List.map Prod.fst l = List.map outName (List.range ms.length) := by
      rw [hn]
      exact List.map_congr_left (fun a _ => by rw [Nat.zero_add])
    rw [hnames]
  · omega

/-- C3 witness: `stmtRet` has 2 input binds and 1 returned Integer column
draining to values 5 and 7 over 2 affected rows; exactly one OUT bind
`out0` is appended and the rows pair up in original order. -/
theorem C3_returning_materialization_witness :
    ColsOk false stmtRet 2 0 [⟨OciDataType.Integer⟩]
        [[some ⟨InnerValue.Integer 5⟩, some ⟨InnerValue.Integer 7⟩]]
      ∧ (load_from_is_returning false stmtRet ["in0", "in1"]
            (List.map some [⟨OciDataType.Integer⟩]) =
          Step.ok ⟨["in0", "in1"] ++ (List.range 1).map outName,
                   (List.range 2).map
                     (fun i => List.map (fun c => c.getD i none)
                       [[some ⟨InnerValue.Integer 5⟩, some ⟨InnerValue.Integer 7⟩]])⟩
          ∧ ([(⟨OciDataType.Integer⟩ : OciTypeMetadata)]).length =
              stmtRet.bindCount - (["in0", "in1"]).length) :=
  ⟨⟨by decide, by decide, trivial⟩,
   C3_returning_materialization false stmtRet ["in0", "in1"]
     [⟨OciDataType.Integer⟩]
     [[some ⟨InnerValue.Integer 5⟩, some ⟨InnerValue.Integer 7⟩]] 2
     rfl rfl rfl ⟨by decide, by decide, trivial⟩⟩

/-! ## Claim C6: which failures panic -/

/-- C6 counterexample: a RETURNING statement whose single returned column
has full type metadata of `Time` kind panics in the drain loop
(`unimplemented!()`), even with the `chrono` feature enabled and every
driver call succeeding — a third panic source beyond the two the claim
allows (unreachable statement shape, missing metadata). -/
theorem C6_panic_counterexample :
    load true stmtTime [] [some ⟨OciDataType.Time⟩] = Step.panic "not implemented"
      ∧ (∀ m ∈ [some (⟨OciDataType.Time⟩ : OciTypeMetadata)], m.isSome = true)
      ∧ stmtTime.isReturningStmt = true
      ∧ stmtTime.executeRes = Except.ok () := by
  refine ⟨by decide, by decide, rfl, rfl⟩

/-- The query-path materialization never panics: every row-fetch failure is
a recoverable error. -/
theorem collectRows_no_panic :
    ∀ l : List (Except OracleError Row), (collectRows l).isPanic = false := by
  intro l
  induction l with
  | nil => rfl
  | cons r rest ih =>
    cases r with
    | error e => rfl
    | ok row =>
      simp only [collectRows]
      cases h : collectRows rest with
      | ok rs => rfl
      | err e => rfl
      | panic s => rw [h] at ih; exact absurd ih (by simp [Step.isPanic])

/-- Lifting a driver value-list result through a per-value wrapper either
fails recoverably or yields a list of the driver's length. -/
theorem liftDriver_map_cases {γ : Type}
    (r : Except OracleError (List (Option γ))) (g : γ → OracleValue)
    (rc : Nat) (h : ∀ l, r = Except.ok l → l.length ≤ rc) :
    (∃ e, liftDriver r (List.map (Option.map g)) = Step.err e)
      ∨ (∃ col, liftDriver r (List.map (Option.map g)) = Step.ok col
          ∧ col.length ≤ rc) := by
  cases r with
  | error e => exact Or.inl ⟨errorFromHelper e, rfl⟩
  | ok l => exact Or.inr ⟨_, rfl, by simpa using h l rfl⟩

/-- Draining one column of a drainable kind either fails recoverably or
yields a list bounded by the driver's per-bind value-list length. -/
theorem extractColumn_cases (chrono : Bool) (stmt : Stmt) (name : String)
    (k : OciDataType) (rc : Nat) (hk : drainableKind chrono k = true)
    (hlen : ∀ (t : ExtractTy) (l : List (Option t.carrier)),
      stmt.returnedValues name t = Except.ok l → l.length ≤ rc) :
    (∃ e, extractColumn chrono stmt name k = Step.err e)
      ∨ (∃ col, extractColumn chrono stmt name k = Step.ok col
          ∧ col.length ≤ rc) := by
  cases k with
  | Bool => exact liftDriver_map_cases _ _ rc (fun l h => hlen .i16 l h)
  | SmallInt => exact liftDriver_map_cases _ _ rc (fun l h => hlen .i16 l h)
  | Integer => exact liftDriver_map_cases _ _ rc (fun l h => hlen .i32 l h)
  | BigInt => exact liftDriver_map_cases _ _ rc (fun l h => hlen .i64 l h)
  | Float => exact liftDriver_map_cases _ _ rc (fun l h => hlen .f32 l h)
  | Double => exact liftDriver_map_cases _ _ rc (fun l h => hlen .f64 l h)
  | Text => exact liftDriver_map_cases _ _ rc (fun l h => hlen .string l h)
  | Binary => exact liftDriver_map_cases _ _ rc (fun l h => hlen .bytes l h)
  | Date =>
    have hc : chrono = true := by
      cases chrono
      · exact absurd hk (by simp [drainableKind])
      · rfl
    subst hc
    exact liftDriver_map_cases _ _ rc (fun l h => hlen .date l h)
  | Timestamp =>
    have hc : chrono = true := by
      cases chrono
      · exact absurd hk (by simp [drainableKind])
      · rfl
    subst hc
    exact liftDriver_map_cases _ _ rc (fun l h => hlen .datetime l h)
  | Time => exact absurd hk (by simp [drainableKind])

/-- The drain loop never panics when all metadata is present, every kind is
drainable, and the driver yields at most as many values per OUT bind as
there are rows. -/
theorem drainLoop_no_panic (chrono : Bool) (stmt : Stmt) (rc : Nat)
    (hlen : ∀ (name : String) (t : ExtractTy) (l : List (Option t.carrier)),
      stmt.returnedValues name t = Except.ok l → l.length ≤ rc) :
    ∀ (ms : List OciTypeMetadata) (id : Nat) (data : List Row),
      (∀ m ∈ ms, drainableKind chrono m.tpe = true) → data.length = rc →
      (drainLoop chrono stmt id (List.map some ms) data).isPanic = false := by
  intro ms
  induction ms with
  | nil => intro id data _ _; rfl
  | cons m ms ih =>
    intro id data hm hd
    have hmk : drainableKind chrono m.tpe = true := hm m (List.mem_cons_self m ms)
    rcases extractColumn_cases chrono stmt (outName id) m.tpe rc hmk
        (fun t l h => hlen (outName id) t l h) with ⟨e, he⟩ | ⟨col, hcol, hle⟩
    · simp [drainLoop, he, Step.isPanic]
    · obtain ⟨d2, hd2, hd2len⟩ := pushColumn_isSome col data (by omega)
      simp only [List.map_cons, drainLoop, hcol, hd2]
      exact ih (id + 1) d2 (fun x hx => hm x (List.mem_cons_of_mem m hx)) (by omega)

/-- C6 amended: a panic is raised only for: `load` invoked on a statement
whose shape is neither query nor RETURNING; the RETURNING path invoked
with a returned column lacking type metadata; or a returned column of a
kind the drain loop cannot extract (`Time` always; `Date`/`Timestamp`
when the `chrono` feature is disabled).  Provided the statement shape is
query or RETURNING, every returned column carries metadata of a drainable
kind, and the driver yields at most `row_count` values per OUT bind, every
other failure along `load` and `load_from_is_returning` is surfaced as a
recoverable `Result` error, never a panic. -/
theorem C6_panic_amended (chrono : Bool) (stmt : Stmt)
    (inputBinds : List String) (ms : List OciTypeMetadata)
    (hshape : stmt.isQueryStmt = true ∨ stmt.isReturningStmt = true)
    (hkinds : ∀ m ∈ ms, drainableKind chrono m.tpe = true)
    (hlen : ∀ (name : String) (t : ExtractTy) (l : List (Option t.carrier)) (rc : Nat),
      stmt.returnedValues name t = Except.ok l →
      stmt.rowCountRes = Except.ok rc → l.length ≤ rc) :
    (load chrono stmt inputBinds (List.map some ms)).isPanic = false := by
  by_cases hq : stmt.isQueryStmt = true
  · simp only [load, hq, if_true]
    cases stmt.queryRes with
    | error e => rfl
    | ok rowResults => exact collectRows_no_panic rowResults
  · have hr : stmt.isReturningStmt = true := by
      rcases hshape with h | h
      · exact absurd h hq
      · exact h
    have hret : (load_from_is_returning chrono stmt inputBinds
        (List.map some ms)).isPanic = false := by
      obtain ⟨l, hl, _⟩ := mkOtherBinds_map_some ms 0
      simp only [load_from_is_returning, hl]
      cases stmt.executeRes with
      | error e => rfl
      | ok u =>
        cases hrc : stmt.rowCountRes with
        | error e => rfl
        | ok rc =>
          have hdl := drainLoop_no_panic chrono stmt rc
            (fun name t lv h => hlen name t lv rc h hrc) ms 0
            (List.replicate rc []) hkinds (List.length_replicate rc [])
          show (match drainLoop chrono stmt 0 (List.map some ms)
                (List.replicate rc []) with
            | Step.err e => Step.err e
            | Step.panic s => Step.panic s
            | Step.ok data2 =>
              Step.ok (RetOut.mk (inputBinds ++ List.map Prod.fst l)
                data2)).isPanic = false
          cases hd : drainLoop chrono stmt 0 (List.map some ms)
              (List.replicate rc []) with
          | ok d => rfl
          | err e => rfl
          | panic s => rw [hd] at hdl; exact absurd hdl (by simp [Step.isPanic])
    simp only [load]
    rw [if_neg hq, if_pos hr]
    cases hlr : load_from_is_returning chrono stmt inputBinds (List.map some ms) with
    | ok out => rfl
    | err e => rfl
    | panic s => rw [hlr] at hret; exact absurd hret (by simp [Step.isPanic])

/-- C6 witness for the amended claim: instantiated at the concrete
RETURNING fixture `stmtRet` (Integer column, two returned values, two
rows). -/
theorem C6_panic_amended_witness :
    (stmtRet.isQueryStmt = true ∨ stmtRet.isReturningStmt = true)
      ∧ (load false stmtRet ["in0", "in1"]
          (List.map some [⟨OciDataType.Integer⟩])).isPanic = false :=
  ⟨Or.inr rfl,
   C6_panic_amended false stmtRet ["in0", "in1"] [⟨OciDataType.Integer⟩]
     (Or.inr rfl)
     (by decide)
     (by
       intro name t l rc h1 h2
       have hrc : rc = 2 := (Except.ok.inj h2).symm
       subst hrc
       cases t <;> simp only [stmtRet] at h1
       case i32 =>
         by_cases hn : name = "out0"
         · rw [if_pos hn] at h1
           rw [← Except.ok.inj h1]
           decide
         · rw [if_neg hn] at h1
           exact Except.noConfusion h1
       all_goals exact Except.noConfusion h1)⟩

end DieselOci
